import Mathlib

/-!
Verification of the Event Query & Deduplication Pipeline of the PR-agent MCP
server (`server.py`).  Each tool of the pipeline is shallowly embedded as a
pure Lean function: the JSON files the Python code reads and writes become
explicit arguments and results (`Option` = the file may be absent, which the
code tests with `.exists()`), the wall clock becomes an explicit `now`
argument, and Python exceptions become `Except`.  Machine timestamps are
modelled as integers counting microseconds, the resolution of Python's
`datetime`.
-/

namespace PrAgent

/-- A `workflow_run` record nested in a webhook event.  `conclusion` is read
with `.get` in the source, so it is optional; `updated_at` may be JSON `null`
(Python `None`), which we model as `none`.  The remaining fields are accessed
with mandatory indexing (`run["name"]` etc.) and are therefore total. -/
structure WorkflowRun where
  name : String
  status : String
  conclusion : Option String
  run_number : Nat
  updated_at : Option String
  html_url : String
  deriving Repr, DecidableEq

/-- An event record of the Event Store (`github_events.json`).  `timestamp`,
`event_type`, `repository` and `sender` are accessed with mandatory indexing in
the source; `workflow_run` is read with `.get` and may be absent (`none`). -/
structure Event where
  timestamp : String
  event_type : String
  repository : String
  sender : String
  workflow_run : Option WorkflowRun
  deriving Repr, DecidableEq

/-- The dedup identity of an event:
`f"{event['timestamp']}:{event['event_type']}:{event['repository']}"`. -/
def eventId (e : Event) : String :=
  e.timestamp ++ ":" ++ e.event_type ++ ":" ++ e.repository

/-- The persisted seen-state document (`events_state.json`).  The source only
ever reads back `seen_event_ids`; `last_processed` and the optional
`manually_marked_count` are written but never read. -/
structure SeenState where
  seen_event_ids : List String
  last_processed : Int
  manually_marked_count : Option Nat
  deriving Repr, DecidableEq

/-- The two persisted documents the pipeline touches.  `none` models a file
that does not exist (`EVENTS_FILE.exists()` / `EVENTS_STATE_FILE.exists()`
returning `False`). -/
structure Stores where
  events_file : Option (List Event)
  state_file : Option SeenState
  deriving Repr, DecidableEq

/-- Python truthiness of an optional string: `None` and `""` are falsy. -/
def pyTruthy : Option String → Bool
  | none => false
  | some s => s ≠ ""

/-- Python's `set(...)` applied to a stored id list: duplicates collapse.  We
model the set as a duplicate-free list; no caller observes the iteration
order of a Python set, so the particular order `List.dedup` picks is
irrelevant to every property proved below. -/
def loadSeen : Option SeenState → List String
  | none => []
  | some st => st.seen_event_ids.dedup

/-- `set.update`: the union of two identity sets, again as a dedup list. -/
def setUnion (a b : List String) : List String :=
  (a ++ b).dedup

/-! ## `get_recent_actions_events` -/

/-- Python's `events[-limit:]` for a natural `limit`: for `limit = 0` the
slice is `events[0:]`, i.e. the whole list (since `-0 == 0`); otherwise the
last `limit` elements. -/
def pyTailSlice (l : List Event) (limit : Nat) : List Event :=
  if limit = 0 then l else l.drop (l.length - limit)

/-- `get_recent_actions_events(limit)`: returns `[]` when the Event Store file
is absent, else the tail slice `events[-limit:]`. -/
def get_recent_actions_events (limit : Nat) (events_file : Option (List Event)) :
    List Event :=
  match events_file with
  | none => []
  | some events => pyTailSlice events limit

/-! ## `get_unseen_events` -/

/-- The value returned by `get_unseen_events`: either the "no events yet"
message (file absent) or the result record, whose `events` carry each event
together with its computed `event_id`. -/
inductive UnseenOut where
  | message (m : String)
  | result (unseen_count : Nat) (events : List (Event × String)) (marked_as_seen : Bool)
  deriving Repr, DecidableEq

/-- `get_unseen_events(mark_as_seen)`: filters the Event Store by identities
absent from the seen set and, when `mark_as_seen` is true and at least one
event is unseen, persists the enlarged seen set (whole-document overwrite
with a fresh `last_processed` and without `manually_marked_count`). -/
def get_unseen_events (mark_as_seen : Bool) (now : Int) (s : Stores) :
    UnseenOut × Stores :=
  match s.events_file with
  | none => (.message "No GitHub Actions events received yet", s)
  | some events =>
    let seen := loadSeen s.state_file
    let unseen := events.filter (fun e => !seen.contains (eventId e))
    let annotated := unseen.map (fun e => (e, eventId e))
    let new_seen_ids := (unseen.map eventId).dedup
    if mark_as_seen && !unseen.isEmpty then
      (.result annotated.length annotated true,
       { s with state_file := some ⟨setUnion seen new_seen_ids, now, none⟩ })
    else
      (.result annotated.length annotated mark_as_seen, s)

/-! ## `mark_events_as_seen` -/

/-- The value returned by `mark_events_as_seen`: the error record for a falsy
input, or the success record. -/
inductive MarkSeenOut where
  | error (m : String)
  | ok (marked_as_seen : Nat) (total_seen_events : Nat) (event_ids_marked : List String)
  deriving Repr, DecidableEq

/-- `mark_events_as_seen(event_ids)`: `event_ids` defaults to `None` and a
falsy value (`None` or `[]`) short-circuits to an error with no write;
otherwise the ids are unioned into the seen set and the state document is
rewritten whole (now with a `manually_marked_count`). -/
def mark_events_as_seen (event_ids : Option (List String)) (now : Int) (s : Stores) :
    MarkSeenOut × Stores :=
  match event_ids with
  | none => (.error "No event IDs provided", s)
  | some ids =>
    if ids.isEmpty then (.error "No event IDs provided", s)
    else
      let seen := loadSeen s.state_file
      let seen' := setUnion seen ids
      (.ok ids.length seen'.length ids,
       { s with state_file := some ⟨seen', now, some ids.length⟩ })

/-! ## Timestamp parsing

Both `get_workflow_status` and `get_new_failures` parse timestamps with
`datetime.fromisoformat(ts.replace('Z', '+00:00'))` and immediately use the
parsed value in arithmetic or a comparison against an aware (UTC) `datetime`.
A malformed string raises `ValueError` at the parse; a string *without* a UTC
offset parses to a naive `datetime`, which then raises `TypeError` at the very
next subtraction or comparison.  Both paths abort the `try`-less caller (and
land in the bare `except` of the `try`-guarded one), so the model collapses
them: `pyParseEventTime` returns the absolute UTC time in microseconds, or
`none` when the Python value would be malformed *or* naive. -/

/-- Value of a decimal digit character. -/
def digitVal (c : Char) : Option Nat :=
  if c.isDigit then some (c.toNat - 48) else none

/-- Parse exactly two decimal digits. -/
def digits2 : List Char → Option (Nat × List Char)
  | a :: b :: rest => do pure ((← digitVal a) * 10 + (← digitVal b), rest)
  | _ => none

/-- Parse exactly four decimal digits. -/
def digits4 : List Char → Option (Nat × List Char)
  | a :: b :: c :: d :: rest => do
    pure ((((← digitVal a) * 10 + (← digitVal b)) * 10 + (← digitVal c)) * 10
            + (← digitVal d), rest)
  | _ => none

/-- Gregorian leap-year rule, as validated by `datetime`. -/
def isLeapYear (y : Int) : Bool :=
  (y % 4 == 0 && y % 100 != 0) || y % 400 == 0

/-- Number of days in a month, as validated by `datetime`. -/
def daysInMonth (y : Int) (m : Nat) : Nat :=
  if m == 2 then (if isLeapYear y then 29 else 28)
  else if m == 4 || m == 6 || m == 9 || m == 11 then 30
  else 31

/-- Days since the Unix epoch of a civil date (proleptic Gregorian). -/
def daysFromCivil (y : Int) (m d : Nat) : Int :=
  let y' : Int := if m ≤ 2 then y - 1 else y
  let era : Int := y'.fdiv 400
  let yoe : Int := y' - era * 400
  let mp : Int := if 2 < m then (m : Int) - 3 else (m : Int) + 9
  let doy : Int := (153 * mp + 2).fdiv 5 + (d : Int) - 1
  let doe : Int := yoe * 365 + yoe.fdiv 4 - yoe.fdiv 100 + doy
  era * 146097 + doe - 719468

/-- Parse the time-of-day part `HH[:MM[:SS[.fff[fff]]]]`, returning
microseconds within the day and the unconsumed rest. -/
def parseTimeOfDay (l : List Char) : Option (Int × List Char) := do
  let (hh, r1) ← digits2 l
  if hh > 23 then none else
  match r1 with
  | ':' :: r2 => do
    let (mm, r3) ← digits2 r2
    if mm > 59 then none else
    match r3 with
    | ':' :: r4 => do
      let (ss, r5) ← digits2 r4
      if ss > 59 then none else
      let base : Int := ((hh * 3600 + mm * 60 + ss : Nat) : Int) * 1000000
      match r5 with
      | '.' :: f1 :: f2 :: f3 :: f4 :: f5 :: f6 :: r6 => do
        let frac : Nat := (((((← digitVal f1) * 10 + (← digitVal f2)) * 10
            + (← digitVal f3)) * 10 + (← digitVal f4)) * 10 + (← digitVal f5)) * 10
            + (← digitVal f6)
        pure (base + (frac : Int), r6)
      | '.' :: f1 :: f2 :: f3 :: r6 => do
        let frac : Nat :=
          ((← digitVal f1) * 100 + (← digitVal f2) * 10 + (← digitVal f3)) * 1000
        pure (base + (frac : Int), r6)
      | _ => pure (base, r5)
    | _ => pure (((hh * 3600 + mm * 60 : Nat) : Int) * 1000000, r3)
  | _ => pure (((hh * 3600 : Nat) : Int) * 1000000, r1)

/-- Parse a trailing UTC offset `±HH:MM[:SS]`.  An empty rest means the value
was naive, which every caller turns into an exception, so it yields `none`. -/
def parseOffset : List Char → Option Int
  | sign :: rest =>
    if sign = '+' || sign = '-' then do
      let (hh, r1) ← digits2 rest
      if hh > 23 then none else
      match r1 with
      | ':' :: r2 => do
        let (mm, r3) ← digits2 r2
        if mm > 59 then none else
        let finish : Int → Option Int := fun secs =>
          some ((if sign = '-' then -secs else secs) * 1000000)
        match r3 with
        | [] => finish ((hh * 3600 + mm * 60 : Nat) : Int)
        | ':' :: r4 => do
          let (ss, r5) ← digits2 r4
          if ss > 59 || !r5.isEmpty then none
          else finish ((hh * 3600 + mm * 60 + ss : Nat) : Int)
        | _ => none
      | _ => none
    else none
  | [] => none

/-- Parse a full ISO-8601 timestamp with a UTC offset (the date separator is
any single character, as in `fromisoformat`); result in absolute UTC
microseconds. -/
def parseIsoAware (l : List Char) : Option Int := do
  let (y, r1) ← digits4 l
  match r1 with
  | '-' :: r2 => do
    let (mo, r3) ← digits2 r2
    if mo < 1 || mo > 12 then none else
    match r3 with
    | '-' :: r4 => do
      let (d, r5) ← digits2 r4
      if d < 1 || d > daysInMonth (y : Int) mo then none else
      match r5 with
      | _sep :: r6 => do
        let (tod, r7) ← parseTimeOfDay r6
        let off ← parseOffset r7
        pure (daysFromCivil (y : Int) mo d * 86400000000 + tod - off)
      | [] => none
    | _ => none
  | _ => none

/-- `ts.replace('Z', '+00:00')` on the character list: the pattern is a
single character, so Python's replace-all is exactly per-character
substitution. -/
def replaceZChars (l : List Char) : List Char :=
  l.foldr (fun c acc => (if c = 'Z' then "+00:00".toList else [c]) ++ acc) []

/-- `datetime.fromisoformat(ts.replace('Z', '+00:00'))` composed with the
immediate aware-datetime use: `none` when Python would raise (malformed or
naive timestamp), the absolute UTC microsecond count otherwise. -/
def pyParseEventTime (s : String) : Option Int :=
  parseIsoAware (replaceZChars s.toList)

/-- Python's `<` between two strings: lexicographic comparison of code
points, with a proper prefix ordered first.  (Lean's built-in `String` order
is the same relation, but its decision procedure does not reduce in the
kernel, so the embedding carries its own structural definition.) -/
def charListLt : List Char → List Char → Bool
  | _, [] => false
  | [], _ :: _ => true
  | a :: as, b :: bs => if a < b then true else if b < a then false else charListLt as bs

/-- Boolean `a < b` on strings, Python semantics. -/
def pyStrLtB (a b : String) : Bool :=
  charListLt a.toList b.toList

/-! ## `get_workflow_status` -/

/-- The `time_since_run` field: the timedelta decomposition
(`days` / `hours` / `minutes` and the raw total, held in microseconds since
Python's `total_seconds()` is just the same quantity scaled), or the error
marker dict produced for a falsy (`{"error": "No timestamp available"}`) or
unusable (`{"error": "Could not parse timestamp"}`) `updated_at`. -/
inductive TimeSince where
  | parts (days hours minutes totalMicros : Int)
  | err (m : String)
  deriving Repr, DecidableEq

/-- Elapsed time since `updated_at`, mirroring the `if updated_at:` truthiness
test, the guarded parse, and Python's `timedelta` normalisation (floored days,
then a seconds-in-day remainder split into hours and minutes). -/
def computeTimeSince (now : Int) (ua : Option String) : TimeSince :=
  if pyTruthy ua then
    match pyParseEventTime (ua.getD "") with
    | some t =>
      let diff := now - t
      let remSecs := (diff.fmod 86400000000).fdiv 1000000
      .parts (diff.fdiv 86400000000) (remSecs.fdiv 3600) ((remSecs.fmod 3600).fdiv 60) diff
    | none => .err "Could not parse timestamp"
  else .err "No timestamp available"

/-- The per-run record appended to a repository's per-workflow list. -/
structure WorkflowInfo where
  name : String
  status : String
  conclusion : Option String
  run_number : Nat
  updated_at : Option String
  time_since_run : TimeSince
  html_url : String
  deriving Repr, DecidableEq

/-- Per-repository aggregate of `get_workflow_status`.  `workflows` is an
insertion-ordered association list, matching Python dict semantics. -/
structure RepoData where
  repository : String
  workflows : List (String × List WorkflowInfo)
  latest_run : Option WorkflowInfo
  total_runs : Nat
  deriving Repr, DecidableEq

/-- Lookup in an insertion-ordered association list (Python `dict` access). -/
def lookupAssoc {β : Type} (l : List (String × β)) (k : String) : Option β :=
  (l.find? (fun p => p.1 == k)).map (·.2)

/-- Keyed store in an insertion-ordered association list: replaces in place if
the key is present, appends otherwise (Python `dict` assignment). -/
def setAssoc {β : Type} (l : List (String × β)) (k : String) (v : β) :
    List (String × β) :=
  match l with
  | [] => [(k, v)]
  | p :: rest => if p.1 == k then (k, v) :: rest else p :: setAssoc rest k v

/-- Python's `>` between the `updated_at` values of a run and the tracked
latest run: both must be strings (lexicographic comparison), a `None` on
either side raises `TypeError`. -/
def pyStrGt (a b : Option String) : Except String Bool :=
  match a, b with
  | some x, some y => .ok (pyStrLtB y x)
  | _, _ => .error "TypeError: not supported between instances of NoneType and str"

/-- The `workflow_info` dict built for one run. -/
def mkInfo (now : Int) (run : WorkflowRun) : WorkflowInfo :=
  { name := run.name, status := run.status, conclusion := run.conclusion,
    run_number := run.run_number, updated_at := run.updated_at,
    time_since_run := computeTimeSince now run.updated_at,
    html_url := run.html_url }

/-- The fresh repository aggregate created on first sight of a repository. -/
def initRepoData (repo : String) : RepoData :=
  { repository := repo, workflows := [], latest_run := none, total_runs := 0 }

/-- The non-raising part of one loop iteration on a repository aggregate:
bump `total_runs`, create the workflow bucket on first sight, and append the
run's `workflow_info` to its bucket. -/
def bumpRepo (run : WorkflowRun) (info : WorkflowInfo) (rd0 : RepoData) : RepoData :=
  let rd1 := { rd0 with
    total_runs := rd0.total_runs + 1,
    workflows := if (lookupAssoc rd0.workflows run.name).isSome then rd0.workflows
                 else rd0.workflows ++ [(run.name, [])] }
  { rd1 with
    workflows := rd1.workflows.map
      (fun (q : String × List WorkflowInfo) =>
        if q.1 == run.name then (q.1, q.2 ++ [info]) else q) }

/-- One iteration of the event loop of `get_workflow_status` on a repository
name and a run: create the repository aggregate on first sight, apply
`bumpRepo`, and update `latest_run` via the (possibly raising) string
comparison. -/
def statusStepCore (now : Int) (st : List (String × RepoData)) (repo : String)
    (run : WorkflowRun) : Except String (List (String × RepoData)) :=
  let rd0 := (lookupAssoc st repo).getD (initRepoData repo)
  let info := mkInfo now run
  let rd2 := bumpRepo run info rd0
  match rd2.latest_run with
  | none => .ok (setAssoc st repo { rd2 with latest_run := some info })
  | some latest =>
    match pyStrGt run.updated_at latest.updated_at with
    | .error m => .error m
    | .ok b => .ok (setAssoc st repo (if b then { rd2 with latest_run := some info } else rd2))

/-- One iteration of the event loop, reading the repository off the event. -/
def statusStep (now : Int) (st : List (String × RepoData)) (p : Event × WorkflowRun) :
    Except String (List (String × RepoData)) :=
  statusStepCore now st p.1.repository p.2

/-- The event loop of `get_workflow_status` over the selected workflow
events: left-to-right, aborting at the first raising step. -/
def statusFold (now : Int) (st : List (String × RepoData)) :
    List (Event × WorkflowRun) → Except String (List (String × RepoData))
  | [] => .ok st
  | p :: rest =>
    match statusStep now st p with
    | .error m => .error m
    | .ok st' => statusFold now st' rest

/-- Descending-by-`updated_at` comparator used to sort a workflow's run list
(`sort(key=..., reverse=True)`); only reached when every key is a string. -/
def runsSortLe (a b : WorkflowInfo) : Bool :=
  !pyStrLtB (a.updated_at.getD "") (b.updated_at.getD "")

/-- The in-place sort of a workflow's run list.  Python's `list.sort` compares
every element at least once when the list has two or more entries, so a `None`
key among them raises `TypeError`; otherwise it is a stable descending sort by
the string key. -/
def sortRuns (l : List WorkflowInfo) : Except String (List WorkflowInfo) :=
  if decide (2 ≤ l.length) && l.any (fun i => i.updated_at.isNone) then
    .error "TypeError: sort comparison not supported between NoneType and str"
  else .ok (l.mergeSort runsSortLe)

/-- The inner sorting loop: sort every workflow bucket of one repository in
order, surfacing the first raised `TypeError`. -/
def sortWorkflows : List (String × List WorkflowInfo) →
    Except String (List (String × List WorkflowInfo))
  | [] => .ok []
  | q :: rest =>
    match sortRuns q.2 with
    | .error m => .error m
    | .ok sorted =>
      match sortWorkflows rest with
      | .error m => .error m
      | .ok ws => .ok ((q.1, sorted) :: ws)

/-- The outer sorting loop over the repository aggregates. -/
def sortRepos : List (String × RepoData) →
    Except String (List (String × RepoData))
  | [] => .ok []
  | p :: rest =>
    match sortWorkflows p.2.workflows with
    | .error m => .error m
    | .ok ws =>
      match sortRepos rest with
      | .error m => .error m
      | .ok res => .ok ((p.1, { p.2 with workflows := ws }) :: res)

/-- The summary dict returned by `get_workflow_status`.  `generated_at` is
`current_time.isoformat()`; the textual rendering is dropped and the instant
kept. -/
structure StatusSummary where
  total_repositories : Nat
  filter_applied : String
  generated_at : Int
  repositories : List RepoData
  deriving Repr, DecidableEq

/-- The value returned by `get_workflow_status`: the "no events yet" message
(file absent or list empty) or the summary. -/
inductive StatusOut where
  | message (m : String)
  | summary (s : StatusSummary)
  deriving Repr, DecidableEq

/-- The selection phase of `get_workflow_status`: events carrying a
`workflow_run`, optionally restricted by conclusion (`if conclusion:` —
Python truthiness; the comparison is `run.get("conclusion") == conclusion`). -/
def selectWorkflowEvents (conclusion : Option String) (events : List Event) :
    List (Event × WorkflowRun) :=
  let workflow_events := events.filterMap
    (fun e => e.workflow_run.map (fun r => (e, r)))
  if pyTruthy conclusion then
    workflow_events.filter (fun p => p.2.conclusion == conclusion)
  else workflow_events

/-- `get_workflow_status(conclusion)`: select events carrying a
`workflow_run`, optionally filter by conclusion (`if conclusion:` — Python
truthiness), aggregate per repository via `statusStep`, then sort every
workflow's run list descending by `updated_at`. -/
def get_workflow_status (conclusion : Option String) (now : Int)
    (events_file : Option (List Event)) : Except String StatusOut :=
  match events_file with
  | none => .ok (.message "No GitHub Actions events received yet")
  | some events =>
    if events.isEmpty then .ok (.message "No GitHub Actions events received yet")
    else
      match statusFold now [] (selectWorkflowEvents conclusion events) with
      | .error m => .error m
      | .ok repos =>
        match sortRepos repos with
        | .error m => .error m
        | .ok repos =>
          .ok (.summary
            { total_repositories := repos.length,
              filter_applied := if pyTruthy conclusion then
                  "conclusion=" ++ conclusion.getD ""
                else "none",
              generated_at := now,
              repositories := repos.map (·.2) })

/-! ## `get_new_failures` -/

/-- One entry of a failure group's `failures` list. -/
structure FailureOccurrence where
  timestamp : String
  run_number : Nat
  html_url : String
  sender : String
  deriving Repr, DecidableEq

/-- A failure group, keyed by `f"{repo}:{workflow_name}"`. -/
structure FailureGroup where
  repository : String
  workflow_name : String
  failure_count : Nat
  first_failure : String
  latest_failure : String
  failures : List FailureOccurrence
  deriving Repr, DecidableEq

/-- The result dict of `get_new_failures`. -/
structure NewFailuresResult where
  time_window_hours : Int
  total_failure_groups : Nat
  total_individual_failures : Nat
  failure_groups : List FailureGroup
  deriving Repr, DecidableEq

/-- The value returned by `get_new_failures`: the "no events yet" message
(file absent) or the result. -/
inductive NewFailuresOut where
  | message (m : String)
  | result (r : NewFailuresResult)
  deriving Repr, DecidableEq

/-- The selection loop of `get_new_failures`: keep events with a failure
conclusion whose timestamp is at or after the cutoff, in order.  The parse of
`event["timestamp"]` is *not* wrapped in `try`, so the loop aborts at the
first failure-conclusion event with an unusable timestamp. -/
def collectFailures (cutoff : Int) : List Event → Except String (List Event)
  | [] => .ok []
  | e :: rest =>
    match e.workflow_run with
    | some run =>
      if run.conclusion == some "failure" then
        match pyParseEventTime e.timestamp with
        | some t =>
          match collectFailures cutoff rest with
          | .error m => .error m
          | .ok tail => .ok (if cutoff ≤ t then e :: tail else tail)
        | none => .error ("unhandled exception parsing or comparing timestamp: "
            ++ e.timestamp)
      else collectFailures cutoff rest
    | none => collectFailures cutoff rest

/-- Fold one failure event into the insertion-ordered group map: create the
group on first sight (with `failure_count = 0` and both boundary timestamps
set to this event's), bump the count, append the occurrence, and advance
`latest_failure` by lexicographic string comparison. -/
def addFailure (groups : List (String × FailureGroup)) (e : Event) :
    List (String × FailureGroup) :=
  match e.workflow_run with
  | none => groups
  | some run =>
    let key := e.repository ++ ":" ++ run.name
    let g0 := (lookupAssoc groups key).getD
      { repository := e.repository, workflow_name := run.name, failure_count := 0,
        first_failure := e.timestamp, latest_failure := e.timestamp, failures := [] }
    let g1 := { g0 with
      failure_count := g0.failure_count + 1,
      failures := g0.failures ++
        [{ timestamp := e.timestamp, run_number := run.run_number,
           html_url := run.html_url, sender := e.sender }] }
    let g2 := if pyStrLtB g1.latest_failure e.timestamp then
        { g1 with latest_failure := e.timestamp }
      else g1
    setAssoc groups key g2

/-- Descending-by-`failure_count` comparator for the final
`sorted(..., key=lambda x: x["failure_count"], reverse=True)`. -/
def groupLe (a b : FailureGroup) : Bool :=
  decide (b.failure_count ≤ a.failure_count)

/-- `get_new_failures(since_hours)`: cutoff at `now - since_hours` hours,
select failures (possibly aborting on a bad timestamp), group them in
first-encounter order, and stable-sort the groups descending by count. -/
def get_new_failures (since_hours : Int) (now : Int)
    (events_file : Option (List Event)) : Except String NewFailuresOut :=
  match events_file with
  | none => .ok (.message "No GitHub Actions events received yet")
  | some events =>
    match collectFailures (now - since_hours * 3600000000) events with
    | .error m => .error m
    | .ok failures =>
      let groups := failures.foldl addFailure []
      let sorted_failures := (groups.map (·.2)).mergeSort groupLe
      .ok (.result
        { time_window_hours := since_hours,
          total_failure_groups := sorted_failures.length,
          total_individual_failures := failures.length,
          failure_groups := sorted_failures })

/-! ## `suggest_team_notification` -/

/-- The `on_call` block of the team configuration.  `primary` and `secondary`
are read with chained `.get`, so each may be absent or null (`none`); an empty
string is also skipped by the truthiness test at use. -/
structure OnCall where
  primary : Option String
  secondary : Option String
  deriving Repr, DecidableEq

/-- A team configuration document (`team_config.json`).  Each field models
one *top-level key*, `none` meaning the key is absent from the document; the
maps are insertion-ordered association lists, as Python dicts. -/
structure TeamConfig where
  repositories : Option (List (String × List String))
  expertise : Option (List (String × List String))
  on_call : Option OnCall
  deriving Repr, DecidableEq

/-- The built-in `default_config` of `suggest_team_notification`. -/
def defaultExpertise : List (String × List String) :=
  [("frontend", ["frontend-lead"]), ("backend", ["backend-lead"]),
   ("deployment", ["devops-lead"]), ("security", ["security-lead"]),
   ("general", ["tech-lead"])]

/-- The fully-merged configuration (every top-level key present). -/
structure MergedConfig where
  repositories : List (String × List String)
  expertise : List (String × List String)
  on_call : OnCall
  deriving Repr, DecidableEq

/-- `config = {**default_config, **team_config}`: a shallow dict merge — each
*top-level* key of the user document replaces the default value wholesale,
and defaults fill in only the absent top-level keys.  A missing config file
(`team_config = {}`) leaves every default in place. -/
def mergeConfig (team_config : Option TeamConfig) : MergedConfig :=
  match team_config with
  | none => { repositories := [], expertise := defaultExpertise,
              on_call := ⟨some "on-call-primary", some "on-call-secondary"⟩ }
  | some c =>
    { repositories := c.repositories.getD [],
      expertise := c.expertise.getD defaultExpertise,
      on_call := c.on_call.getD ⟨some "on-call-primary", some "on-call-secondary"⟩ }

/-- One entry of `notification_suggestions`. -/
structure Suggestion where
  type : String
  person : String
  reason : String
  deriving Repr, DecidableEq

/-- The result dict of `suggest_team_notification` (`config_file_location` is
a constant path and is dropped). -/
structure SuggestResult where
  repository : String
  workflow_name : String
  failure_type : String
  notification_suggestions : List Suggestion
  workflow_specific_notes : List String
  config_exists : Bool
  deriving Repr, DecidableEq

/-- `pat in s` on lowered strings: substring test over the character lists. -/
def charsInfixOf (pat : List Char) : List Char → Bool
  | [] => pat.isEmpty
  | c :: rest => pat.isPrefixOf (c :: rest) || charsInfixOf pat rest

/-- Python `pat in workflow_name.lower()`. -/
def strContains (s pat : String) : Bool :=
  charsInfixOf pat.toList s.toLower.toList

/-- `suggest_team_notification(repository, workflow_name, failure_type)`: a
pure function of its three string arguments and the configuration document
(the only file it reads).  Suggestions are ranked: repository owners first,
then experts for the failure type, then primary and secondary on-call; notes
come from keyword matches on the lowered workflow name. -/
def suggest_team_notification (repository workflow_name failure_type : String)
    (team_config_file : Option TeamConfig) : SuggestResult :=
  let config := mergeConfig team_config_file
  let repoSuggestions := match lookupAssoc config.repositories repository with
    | some owners => owners.map (fun person =>
        { type := "repository_owner", person := person,
          reason := "Repository owner for " ++ repository })
    | none => []
  let expertSuggestions := match lookupAssoc config.expertise failure_type with
    | some experts => experts.map (fun person =>
        { type := "expertise", person := person,
          reason := "Expert in " ++ failure_type ++ " issues" })
    | none => []
  let onCallPrimary := if pyTruthy config.on_call.primary then
      [{ type := "on_call_primary", person := config.on_call.primary.getD "",
         reason := "Primary on-call engineer" : Suggestion }]
    else []
  let onCallSecondary := if pyTruthy config.on_call.secondary then
      [{ type := "on_call_secondary", person := config.on_call.secondary.getD "",
         reason := "Secondary on-call engineer" : Suggestion }]
    else []
  let notes :=
    if strContains workflow_name "test" then
      ["QA team should be notified for test failures"]
    else if strContains workflow_name "deploy" then
      ["DevOps team should be notified for deployment failures"]
    else if strContains workflow_name "security" then
      ["Security team should be notified for security check failures"]
    else []
  { repository := repository,
    workflow_name := workflow_name,
    failure_type := failure_type,
    notification_suggestions :=
      repoSuggestions ++ expertSuggestions ++ onCallPrimary ++ onCallSecondary,
    workflow_specific_notes := notes,
    config_exists := team_config_file.isSome }

/-! ## Concrete sample data for witnesses and counterexamples -/

/-- A plain event without a workflow run. -/
def sEvent (t ty repo : String) : Event :=
  { timestamp := t, event_type := ty, repository := repo, sender := "u",
    workflow_run := none }

/-- A failure-conclusion workflow run. -/
def sRun (name : String) (ua : Option String) : WorkflowRun :=
  { name := name, status := "completed", conclusion := some "failure",
    run_number := 1, updated_at := ua, html_url := "x" }

/-- An event carrying a failure-conclusion workflow run. -/
def sWfEvent (t repo wname : String) (ua : Option String) : Event :=
  { timestamp := t, event_type := "workflow_run", repository := repo,
    sender := "u", workflow_run := some (sRun wname ua) }

/-- A store whose second run has a JSON-null `updated_at` while the first has
a string one: the comparison `None > str` in the latest-run update raises. -/
def cexStatusEvents : List Event :=
  [sWfEvent "t1" "a/b" "CI" (some "2024-01-01T00:00:00Z"),
   sWfEvent "t2" "a/b" "CI" none]

/-- A store with a single failure-conclusion event whose `timestamp` is not
ISO-8601. -/
def cexFailEvents : List Event :=
  [sWfEvent "boom" "a/b" "CI" (some "2024-01-01T00:00:00Z")]

/-- 2024-01-02T00:00:00Z in microseconds since the epoch. -/
def sampleNow : Int := 1704153600000000

/-- A failure store producing three groups with counts 1, 5, 3 in
first-encounter order: one `r1:A` failure, then five `r2:B`, then three
`r3:C` (all within 24 hours of `sampleNow`). -/
def cexCountsEvents : List Event :=
  [sWfEvent "2024-01-01T12:00:00Z" "r1" "A" (some "2024-01-01T12:00:00Z"),
   sWfEvent "2024-01-01T12:01:00Z" "r2" "B" (some "2024-01-01T12:01:00Z"),
   sWfEvent "2024-01-01T12:02:00Z" "r2" "B" (some "2024-01-01T12:02:00Z"),
   sWfEvent "2024-01-01T12:03:00Z" "r2" "B" (some "2024-01-01T12:03:00Z"),
   sWfEvent "2024-01-01T12:04:00Z" "r2" "B" (some "2024-01-01T12:04:00Z"),
   sWfEvent "2024-01-01T12:05:00Z" "r2" "B" (some "2024-01-01T12:05:00Z"),
   sWfEvent "2024-01-01T12:06:00Z" "r3" "C" (some "2024-01-01T12:06:00Z"),
   sWfEvent "2024-01-01T12:07:00Z" "r3" "C" (some "2024-01-01T12:07:00Z"),
   sWfEvent "2024-01-01T12:08:00Z" "r3" "C" (some "2024-01-01T12:08:00Z")]

/-- The failure counts of the groups of a `get_new_failures` outcome, in
output order (`none` for a message or an exception). -/
def failureCountsOf (x : Except String NewFailuresOut) : Option (List Nat) :=
  match x with
  | .ok (.result r) => some (r.failure_groups.map (·.failure_count))
  | _ => none

/-- The result record of a successful `get_new_failures` outcome (junk
otherwise; used only to name the concrete record in witnesses). -/
def resultOf (x : Except String NewFailuresOut) : NewFailuresResult :=
  match x with
  | .ok (.result r) => r
  | _ => { time_window_hours := 0, total_failure_groups := 0,
           total_individual_failures := 0, failure_groups := [] }

/-- A per-run predicate holding of every `workflow_info` reachable from a
repository aggregate (its `latest_run` and all bucket entries). -/
def RepoP (P : WorkflowInfo → Prop) (rd : RepoData) : Prop :=
  (∀ i, rd.latest_run = some i → P i) ∧ ∀ w ∈ rd.workflows, ∀ i ∈ w.2, P i

/-- The identities recorded in a `Stores` value's state document, as the list
actually persisted on disk. -/
def seenIdsOf (s : Stores) : List String :=
  match s.state_file with
  | none => []
  | some st => st.seen_event_ids

/-- The first-encounter group list of the C8 witness store: `r1:A` once, then
`r2:B` five times, then `r3:C` three times. -/
def cexCountsBase : List FailureGroup :=
  (cexCountsEvents.foldl addFailure []).map (·.2)

/-- A failure occurrence of the C8 witness store. -/
def occ (t : String) : FailureOccurrence :=
  { timestamp := t, run_number := 1, html_url := "x", sender := "u" }

/-- The `r1:A` group of the C8 witness store (count 1). -/
def cexGroupA : FailureGroup :=
  { repository := "r1", workflow_name := "A", failure_count := 1,
    first_failure := "2024-01-01T12:00:00Z", latest_failure := "2024-01-01T12:00:00Z",
    failures := [occ "2024-01-01T12:00:00Z"] }

/-- The `r2:B` group of the C8 witness store (count 5). -/
def cexGroupB : FailureGroup :=
  { repository := "r2", workflow_name := "B", failure_count := 5,
    first_failure := "2024-01-01T12:01:00Z", latest_failure := "2024-01-01T12:05:00Z",
    failures := [occ "2024-01-01T12:01:00Z", occ "2024-01-01T12:02:00Z",
      occ "2024-01-01T12:03:00Z", occ "2024-01-01T12:04:00Z", occ "2024-01-01T12:05:00Z"] }

/-- The `r3:C` group of the C8 witness store (count 3). -/
def cexGroupC : FailureGroup :=
  { repository := "r3", workflow_name := "C", failure_count := 3,
    first_failure := "2024-01-01T12:06:00Z", latest_failure := "2024-01-01T12:08:00Z",
    failures := [occ "2024-01-01T12:06:00Z", occ "2024-01-01T12:07:00Z",
      occ "2024-01-01T12:08:00Z"] }

end PrAgent

namespace PrAgent

/-- `get_unseen_events` on a present events file, reduced to its two
branches. -/
lemma get_unseen_events_some (mark : Bool) (now : Int) (evs : List Event)
    (st : Option SeenState) :
    get_unseen_events mark now ⟨some evs, st⟩ =
      (let seen := loadSeen st
       let unseen := evs.filter (fun e => !seen.contains (eventId e))
       let annotated := unseen.map (fun e => (e, eventId e))
       if mark && !unseen.isEmpty then
         (.result annotated.length annotated true,
          ⟨some evs, some ⟨setUnion seen ((unseen.map eventId).dedup), now, none⟩⟩)
       else (.result annotated.length annotated mark, ⟨some evs, st⟩)) := rfl

/-- Evaluation of `loadSeen` on a present document. -/
lemma loadSeen_some (t : SeenState) : loadSeen (some t) = t.seen_event_ids.dedup :=
  rfl

/-- When every stored event's identity is already seen, `get_unseen_events`
returns the empty result (with the echoed flag) and no event. -/
lemma unseen_result_of_all_seen (mark : Bool) (now : Int) (evs : List Event)
    (st : Option SeenState) (h : ∀ e ∈ evs, eventId e ∈ loadSeen st) :
    (get_unseen_events mark now ⟨some evs, st⟩).1 = .result 0 [] mark := by
  have hnil : evs.filter (fun e => !decide (eventId e ∈ loadSeen st)) = [] := by
    rw [List.filter_eq_nil_iff]
    intro e he
    simp [h e he]
  rw [get_unseen_events_some]
  simp [hnil]

/-- After `unseen(true)`, a second `unseen` call (either flag, any clock) on
the resulting stores finds nothing: every stored event's identity is in the
persisted seen set. -/
lemma unseen_after_mark (now now2 : Int) (mark2 : Bool) (evs : List Event)
    (st : Option SeenState) :
    (get_unseen_events mark2 now2
        ((get_unseen_events true now ⟨some evs, st⟩).2)).1 = .result 0 [] mark2 := by
  have hred := get_unseen_events_some true now evs st
  by_cases hc : (true && !(evs.filter
      (fun e => !(loadSeen st).contains (eventId e))).isEmpty) = true
  · -- the union document was written: everything is seen afterwards
    simp only [hc, if_true] at hred
    rw [hred]
    apply unseen_result_of_all_seen
    intro e he
    rw [loadSeen_some]
    simp only [setUnion, List.mem_dedup, List.mem_append]
    by_cases hs : eventId e ∈ loadSeen st
    · exact Or.inl hs
    · refine Or.inr ?_
      simp only [List.mem_dedup, List.mem_map]
      exact ⟨e, List.mem_filter.mpr ⟨he, by simp [List.contains, hs]⟩, rfl⟩
  · -- nothing was unseen in the first place, so nothing was written
    simp only [hc, if_false] at hred
    rw [hred]
    apply unseen_result_of_all_seen
    intro e he
    simp only [Bool.true_and, Bool.not_eq_true', Bool.not_eq_false] at hc
    have hnil := List.isEmpty_iff.mp hc
    have := List.filter_eq_nil_iff.mp hnil e he
    simpa [List.contains] using this

/-! ## Claim C2: `unseen(true)` then `unseen` again yields zero -/

/-- **C2.** For every event store whose event identities are pairwise
distinct, `unseen(true)` followed by a second `unseen` call (either flag) on
the resulting stores returns zero unseen events.  (The embedding proves this
even without the distinctness assumption, which the claim imposes.) -/
theorem unseen_mark_then_second_empty (now now2 : Int) (mark2 : Bool)
    (evs : List Event) (s : Stores) (hstore : s.events_file = some evs)
    (hdistinct : (evs.map eventId).Nodup) :
    (get_unseen_events mark2 now2 ((get_unseen_events true now s).2)).1 =
      .result 0 [] mark2 := by
  obtain ⟨ef, st⟩ := s
  simp only at hstore
  subst hstore
  exact unseen_after_mark now now2 mark2 evs st

/-- Witness for C2: a two-event store with distinct identities and no state
file; the second call returns zero unseen events. -/
theorem unseen_mark_then_second_empty_witness :
    (get_unseen_events false 2
        ((get_unseen_events true 1
          ⟨some [sEvent "t1" "push" "r", sEvent "t2" "push" "r"], none⟩).2)).1 =
      .result 0 [] false :=
  unseen_mark_then_second_empty 1 2 false
    [sEvent "t1" "push" "r", sEvent "t2" "push" "r"] _ rfl (by decide)

/-! ## Claim C7: the persisted seen set only grows -/

/-- **C7.** Every operation that writes the Seen-State Store — `unseen` with
any flag, and `mark_seen` with any input — persists a `seen_event_ids` list
containing every identity of the previously stored list: identities are only
added, never removed. -/
theorem seen_ids_monotone :
    (∀ (mark : Bool) (now : Int) (s : Stores) (id : String),
      id ∈ seenIdsOf s → id ∈ seenIdsOf (get_unseen_events mark now s).2) ∧
    (∀ (ids : Option (List String)) (now : Int) (s : Stores) (id : String),
      id ∈ seenIdsOf s → id ∈ seenIdsOf (mark_events_as_seen ids now s).2) := by
  have hload : ∀ (st : Option SeenState) (id : String),
      id ∈ seenIdsOf ⟨none, st⟩ → id ∈ loadSeen st := by
    intro st id hid
    cases st with
    | none => simpa [seenIdsOf] using hid
    | some t =>
      simp only [seenIdsOf] at hid
      simp [loadSeen, List.mem_dedup, hid]
  constructor
  · intro mark now s id hid
    obtain ⟨ef, st⟩ := s
    cases ef with
    | none => simpa [get_unseen_events] using hid
    | some evs =>
      have hmem : id ∈ loadSeen st := hload st id (by simpa [seenIdsOf] using hid)
      rw [get_unseen_events_some]
      by_cases hc : (mark && !(evs.filter
          (fun e => !(loadSeen st).contains (eventId e))).isEmpty) = true
      · simp only [hc, if_true, seenIdsOf, setUnion]
        simp [List.mem_dedup, hmem]
      · simp only [hc, if_false]
        simpa [seenIdsOf] using hid
  · intro ids now s id hid
    obtain ⟨ef, st⟩ := s
    cases ids with
    | none => simpa [mark_events_as_seen] using hid
    | some l =>
      by_cases hl : l.isEmpty
      · simpa [mark_events_as_seen, hl] using hid
      · have hmem : id ∈ loadSeen st := hload st id (by simpa [seenIdsOf] using hid)
        simp only [mark_events_as_seen, hl, if_false, seenIdsOf, setUnion]
        simp [List.mem_dedup, hmem]

/-- Witness for C7: a store whose state file already records `"x"`; both a
marking `unseen(true)` call and a `mark_seen` call keep `"x"` persisted. -/
theorem seen_ids_monotone_witness :
    "x" ∈ seenIdsOf (get_unseen_events true 1
        ⟨some [sEvent "t1" "push" "r"], some ⟨["x"], 0, none⟩⟩).2 ∧
    "x" ∈ seenIdsOf (mark_events_as_seen (some ["y"]) 1
        ⟨some [sEvent "t1" "push" "r"], some ⟨["x"], 0, none⟩⟩).2 :=
  ⟨seen_ids_monotone.1 true 1 _ "x" (by simp [seenIdsOf]),
   seen_ids_monotone.2 (some ["y"]) 1 _ "x" (by simp [seenIdsOf])⟩

/-! ## Claim C10: events sharing one identity -/

/-- **C10.** If two distinct stored events share one identity key that is not
yet seen, a single `unseen(true)` call returns both (each annotated with the
same `event_id`, and `unseen_count` — the length of the returned list —
counts them separately), the persisted seen list gains exactly one copy of
the shared identity, and a subsequent `unseen` call returns none of them
(indeed returns no events at all). -/
theorem unseen_shared_identity (now now2 : Int) (mark2 : Bool)
    (evs : List Event) (st : Option SeenState) (e1 e2 : Event)
    (h1 : e1 ∈ evs) (h2 : e2 ∈ evs) (hne : e1 ≠ e2)
    (hid : eventId e1 = eventId e2) (hnew : eventId e1 ∉ loadSeen st) :
    (∃ lst : List (Event × String),
      (get_unseen_events true now ⟨some evs, st⟩).1 = .result lst.length lst true ∧
      (e1, eventId e1) ∈ lst ∧ (e2, eventId e1) ∈ lst ∧ 2 ≤ lst.length) ∧
    (seenIdsOf (get_unseen_events true now ⟨some evs, st⟩).2).count (eventId e1) = 1 ∧
    (get_unseen_events mark2 now2
        ((get_unseen_events true now ⟨some evs, st⟩).2)).1 = .result 0 [] mark2 := by
  have hnew2 : eventId e2 ∉ loadSeen st := by rw [← hid]; exact hnew
  have hu1 : e1 ∈ evs.filter (fun e => !(loadSeen st).contains (eventId e)) :=
    List.mem_filter.mpr ⟨h1, by simp [List.contains, hnew]⟩
  have hu2 : e2 ∈ evs.filter (fun e => !(loadSeen st).contains (eventId e)) :=
    List.mem_filter.mpr ⟨h2, by simp [List.contains, hnew2]⟩
  have hcond : (true && !(evs.filter
      (fun e => !(loadSeen st).contains (eventId e))).isEmpty) = true := by
    simp
    exact ⟨e1, h1, hnew⟩
  have hred := get_unseen_events_some true now evs st
  simp only [hcond, if_true] at hred
  refine ⟨?_, ?_, unseen_after_mark now now2 mark2 evs st⟩
  · refine ⟨(evs.filter (fun e => !(loadSeen st).contains (eventId e))).map
      (fun e => (e, eventId e)), ?_, ?_, ?_, ?_⟩
    · rw [hred]
    · exact List.mem_map.mpr ⟨e1, hu1, rfl⟩
    · exact List.mem_map.mpr ⟨e2, hu2, by rw [hid]⟩
    · rw [List.length_map]
      have hsub : ({e1, e2} : Finset Event) ⊆
          (evs.filter (fun e => !(loadSeen st).contains (eventId e))).toFinset := by
        intro x hx
        rcases Finset.mem_insert.mp hx with hx | hx
        · subst hx; exact List.mem_toFinset.mpr hu1
        · rw [Finset.mem_singleton.mp hx]; exact List.mem_toFinset.mpr hu2
      calc 2 = ({e1, e2} : Finset Event).card := (Finset.card_pair hne).symm
        _ ≤ _ := Finset.card_le_card hsub
        _ ≤ _ := List.toFinset_card_le _
  · rw [hred]
    simp only [seenIdsOf]
    have hmem : eventId e1 ∈ setUnion (loadSeen st)
        (((evs.filter (fun e => !(loadSeen st).contains (eventId e))).map
          eventId).dedup) := by
      simp only [setUnion, List.mem_dedup, List.mem_append]
      exact Or.inr (by
        simp only [List.mem_dedup, List.mem_map]
        exact ⟨e1, hu1, rfl⟩)
    exact List.count_eq_one_of_mem (List.nodup_dedup _) hmem

/-- Witness for C10: two stored events with equal timestamp, type and
repository but different senders (hence distinct records, same identity). -/
theorem unseen_shared_identity_witness :
    (∃ lst : List (Event × String),
      (get_unseen_events true 7 ⟨some [⟨"t", "push", "r", "alice", none⟩,
          ⟨"t", "push", "r", "bob", none⟩], none⟩).1 = .result lst.length lst true ∧
      (⟨"t", "push", "r", "alice", none⟩, eventId ⟨"t", "push", "r", "alice", none⟩) ∈ lst ∧
      (⟨"t", "push", "r", "bob", none⟩, eventId ⟨"t", "push", "r", "alice", none⟩) ∈ lst ∧
      2 ≤ lst.length) ∧
    (seenIdsOf (get_unseen_events true 7 ⟨some [⟨"t", "push", "r", "alice", none⟩,
        ⟨"t", "push", "r", "bob", none⟩], none⟩).2).count
      (eventId ⟨"t", "push", "r", "alice", none⟩) = 1 ∧
    (get_unseen_events false 8 ((get_unseen_events true 7
        ⟨some [⟨"t", "push", "r", "alice", none⟩,
          ⟨"t", "push", "r", "bob", none⟩], none⟩).2)).1 = .result 0 [] false :=
  unseen_shared_identity 7 8 false _ none _ _
    (by simp) (by simp) (by decide) rfl (by simp [loadSeen])

/-! ## Claim C6: the team-configuration merge is shallow -/

/-- **C6.** The merge `{**default_config, **team_config}` is shallow over
top-level keys: a top-level key present in the user document replaces the
default value wholesale (in particular a present `expertise` map is *not*
merged per category), and defaults apply exactly to the absent top-level
keys.  Consequently a user document supplying only a `frontend` expertise
loses the default `backend` experts: the router then emits no
expertise-typed suggestion for `failure_type = "backend"`, though with no
user document it emits the default `backend-lead`.  (That the router is a
pure function of repository, workflow name, failure type and the
configuration document holds by construction in this embedding:
`suggest_team_notification` takes exactly those four arguments.) -/
theorem team_config_merge_shallow :
    (∀ (c : TeamConfig) (m : List (String × List String)), c.expertise = some m →
      (mergeConfig (some c)).expertise = m) ∧
    (∀ c : TeamConfig, c.expertise = none →
      (mergeConfig (some c)).expertise = defaultExpertise) ∧
    (∀ (c : TeamConfig) (m : List (String × List String)), c.repositories = some m →
      (mergeConfig (some c)).repositories = m) ∧
    (∀ c : TeamConfig, c.repositories = none →
      (mergeConfig (some c)).repositories = []) ∧
    (∀ (c : TeamConfig) (oc : OnCall), c.on_call = some oc →
      (mergeConfig (some c)).on_call = oc) ∧
    (∀ c : TeamConfig, c.on_call = none →
      (mergeConfig (some c)).on_call =
        ⟨some "on-call-primary", some "on-call-secondary"⟩) ∧
    ((suggest_team_notification "o/r" "build" "backend"
        (some ⟨none, some [("frontend", ["alice"])], none⟩)).notification_suggestions.filter
          (fun sg => sg.type == "expertise") = []) ∧
    ((suggest_team_notification "o/r" "build" "backend"
        none).notification_suggestions.filter (fun sg => sg.type == "expertise") =
      [⟨"expertise", "backend-lead", "Expert in backend issues"⟩]) := by
  refine ⟨fun c m h => ?_, fun c h => ?_, fun c m h => ?_, fun c h => ?_,
    fun c oc h => ?_, fun c h => ?_, ?_, ?_⟩
  · simp [mergeConfig, h]
  · simp [mergeConfig, h]
  · simp [mergeConfig, h]
  · simp [mergeConfig, h]
  · simp [mergeConfig, h]
  · simp [mergeConfig, h]
  · decide
  · decide

/-- Witness for C6: the merged expertise of a document carrying only a
`frontend` entry is exactly that entry — the defaults are gone. -/
theorem team_config_merge_shallow_witness :
    (mergeConfig (some ⟨none, some [("frontend", ["alice"])], none⟩)).expertise =
      [("frontend", ["alice"])] :=
  team_config_merge_shallow.1 ⟨none, some [("frontend", ["alice"])], none⟩
    [("frontend", ["alice"])] rfl

/-! ## Claim C8: failure groups sorted descending by count, stably -/

/-- A stable sort keeps any class of mutually `le`-equivalent elements (here:
elements selected by a predicate forcing mutual `le`) in input order: the
filtered output equals the filtered input. -/
lemma filter_mergeSort_of_le {α : Type} (le : α → α → Bool)
    (htrans : ∀ a b c, le a b → le b c → le a c)
    (htotal : ∀ a b, le a b || le b a)
    (p : α → Bool) (hp : ∀ a b, p a = true → p b = true → le a b = true)
    (l : List α) : (l.mergeSort le).filter p = l.filter p := by
  have hpair : (l.filter p).Pairwise (fun a b => le a b = true) :=
    List.pairwise_of_forall_mem_list (fun a ha b hb =>
      hp a b (List.of_mem_filter ha) (List.of_mem_filter hb))
  have h1 : (l.filter p).Sublist (l.mergeSort le) :=
    List.sublist_mergeSort htrans htotal hpair (List.filter_sublist l)
  have heq : (l.filter p).filter p = l.filter p := by
    simp [List.filter_filter]
  have h2 : (l.filter p).Sublist ((l.mergeSort le).filter p) := by
    have h2' := h1.filter p
    rwa [heq] at h2'
  have hlen : (l.filter p).length = ((l.mergeSort le).filter p).length := by
    rw [← List.countP_eq_length_filter, ← List.countP_eq_length_filter]
    exact ((List.mergeSort_perm l le).countP_eq p).symm
  exact (h2.eq_of_length hlen).symm

/-- `groupLe` is transitive. -/
lemma groupLe_trans (a b c : FailureGroup) :
    groupLe a b → groupLe b c → groupLe a c := by
  simp only [groupLe, decide_eq_true_eq]
  omega

/-- `groupLe` is total. -/
lemma groupLe_total (a b : FailureGroup) : groupLe a b || groupLe b a := by
  simp only [groupLe, Bool.or_eq_true, decide_eq_true_eq]
  omega

/-- **C8.** Whenever `get_new_failures` returns a result, its failure groups
are the first-encounter-order groups sorted in descending order of
`failure_count`, ties kept stable: the output is a permutation of the
first-encounter group list, consecutive counts are non-increasing, and for
each count value the output lists the groups of that count in exactly their
first-encounter order.  On the concrete store whose three groups have counts
[1, 5, 3], the output counts are [5, 3, 1]. -/
theorem new_failures_groups_sorted (since_hours now : Int)
    (events failures : List Event)
    (hc : collectFailures (now - since_hours * 3600000000) events = .ok failures)
    (r : NewFailuresResult)
    (h : get_new_failures since_hours now (some events) = .ok (.result r)) :
    (r.failure_groups.Pairwise
      (fun a b => b.failure_count ≤ a.failure_count) ∧
    List.Perm r.failure_groups ((failures.foldl addFailure []).map (·.2)) ∧
    (∀ c : Nat, r.failure_groups.filter (fun g => g.failure_count == c) =
      ((failures.foldl addFailure []).map (·.2)).filter
        (fun g => g.failure_count == c))) ∧
    failureCountsOf (get_new_failures 24 sampleNow (some cexCountsEvents)) =
      some [5, 3, 1] := by
  have hr : r.failure_groups =
      ((failures.foldl addFailure []).map (·.2)).mergeSort groupLe := by
    have hcalc : get_new_failures since_hours now (some events) =
        .ok (.result
          { time_window_hours := since_hours,
            total_failure_groups :=
              (((failures.foldl addFailure []).map (·.2)).mergeSort groupLe).length,
            total_individual_failures := failures.length,
            failure_groups :=
              ((failures.foldl addFailure []).map (·.2)).mergeSort groupLe }) := by
      simp only [get_new_failures]
      rw [hc]
    rw [hcalc] at h
    simp only [Except.ok.injEq, NewFailuresOut.result.injEq] at h
    rw [← h]
  refine ⟨⟨?_, ?_, ?_⟩, ?_⟩
  · rw [hr]
    have := List.sorted_mergeSort
      (fun a b c => groupLe_trans a b c) groupLe_total
      ((failures.foldl addFailure []).map (·.2))
    exact this.imp (fun hab => by simpa [groupLe] using hab)
  · rw [hr]
    exact List.mergeSort_perm _ _
  · intro c
    rw [hr]
    apply filter_mergeSort_of_le
    · exact fun a b c => groupLe_trans a b c
    · exact groupLe_total
    · intro a b ha hb
      simp only [beq_iff_eq] at ha hb
      simp [groupLe, ha, hb]
  · have hbase : cexCountsBase = [cexGroupA, cexGroupB, cexGroupC] := by decide
    have hmain : failureCountsOf (get_new_failures 24 sampleNow
        (some cexCountsEvents)) =
        some ((cexCountsBase.mergeSort groupLe).map (fun g => g.failure_count)) := rfl
    rw [hmain, hbase]
    simp [List.mergeSort, groupLe, cexGroupA, cexGroupB, cexGroupC]

/-- Witness for C8 at the concrete counts-[1,5,3] store (where
`collectFailures` keeps all nine events). -/
theorem new_failures_groups_sorted_witness :
    ((resultOf (get_new_failures 24 sampleNow
        (some cexCountsEvents))).failure_groups.Pairwise
      (fun a b => b.failure_count ≤ a.failure_count) ∧
    List.Perm (resultOf (get_new_failures 24 sampleNow
        (some cexCountsEvents))).failure_groups cexCountsBase ∧
    (∀ c : Nat, (resultOf (get_new_failures 24 sampleNow
        (some cexCountsEvents))).failure_groups.filter
        (fun g => g.failure_count == c) =
      cexCountsBase.filter (fun g => g.failure_count == c))) ∧
    failureCountsOf (get_new_failures 24 sampleNow (some cexCountsEvents)) =
      some [5, 3, 1] :=
  new_failures_groups_sorted 24 sampleNow cexCountsEvents cexCountsEvents
    (by rfl) (resultOf (get_new_failures 24 sampleNow (some cexCountsEvents)))
    (by rfl)

/-! ## Claim C1: timestamp-error handling -/

/-- Members of `setAssoc l k v` are `(k, v)` or members of `l`. -/
lemma mem_setAssoc {β : Type} (l : List (String × β)) (k : String) (v : β)
    (q : String × β) (h : q ∈ setAssoc l k v) : q = (k, v) ∨ q ∈ l := by
  induction l with
  | nil =>
    simp only [setAssoc, List.mem_singleton] at h
    exact Or.inl h
  | cons p rest ih =>
    simp only [setAssoc] at h
    by_cases hk : p.1 == k
    · simp only [hk, if_true, List.mem_cons] at h
      rcases h with h | h
      · exact Or.inl h
      · exact Or.inr (List.mem_cons_of_mem p h)
    · have h2 : q = p ∨ q ∈ setAssoc rest k v := by
        simpa [hk] using h
      rcases h2 with h2 | h2
      · subst h2
        exact Or.inr (List.mem_cons_self _ _)
      · rcases ih h2 with h3 | h3
        · exact Or.inl h3
        · exact Or.inr (List.mem_cons_of_mem p h3)

/-- A successful association lookup returns the value of some member pair. -/
lemma lookupAssoc_mem {β : Type} (l : List (String × β)) (k : String) (v : β)
    (h : lookupAssoc l k = some v) : ∃ q ∈ l, q.2 = v := by
  simp only [lookupAssoc] at h
  rcases Option.map_eq_some'.mp h with ⟨q, hq, hv⟩
  exact ⟨q, List.mem_of_find?_eq_some hq, hv⟩

/-- `bumpRepo` does not touch `latest_run`. -/
lemma bumpRepo_latest (run : WorkflowRun) (info : WorkflowInfo) (rd0 : RepoData) :
    (bumpRepo run info rd0).latest_run = rd0.latest_run := rfl

/-- Every `workflow_info` in the buckets of `bumpRepo run info rd0` is either
the appended `info` or was already in a bucket of `rd0`. -/
lemma bumpRepo_infos (run : WorkflowRun) (info : WorkflowInfo) (rd0 : RepoData)
    (w : String × List WorkflowInfo) (hw : w ∈ (bumpRepo run info rd0).workflows)
    (i : WorkflowInfo) (hi : i ∈ w.2) :
    i = info ∨ ∃ w0 ∈ rd0.workflows, i ∈ w0.2 := by
  simp only [bumpRepo, List.mem_map] at hw
  rcases hw with ⟨q, hq, hfq⟩
  have hq0 : q ∈ rd0.workflows ∨ q = (run.name, ([] : List WorkflowInfo)) := by
    by_cases hlk : (lookupAssoc rd0.workflows run.name).isSome
    · simp only [hlk, if_true] at hq
      exact Or.inl hq
    · simp [hlk, List.mem_append] at hq
      rcases hq with hq | hq
      · exact Or.inl hq
      · exact Or.inr (by rw [hq])
  by_cases hqn : q.1 == run.name
  · rw [if_pos hqn] at hfq
    rw [← hfq] at hi
    simp only [List.mem_append, List.mem_singleton] at hi
    rcases hi with hi | hi
    · rcases hq0 with hq0 | hq0
      · exact Or.inr ⟨q, hq0, hi⟩
      · rw [hq0] at hi
        exact absurd hi (List.not_mem_nil i)
    · exact Or.inl hi
  · rw [if_neg hqn] at hfq
    rw [← hfq] at hi
    rcases hq0 with hq0 | hq0
    · exact Or.inr ⟨q, hq0, hi⟩
    · rw [hq0] at hi
      exact absurd hi (List.not_mem_nil i)

/-- The repository aggregate read (or created) at the start of a loop
iteration satisfies any reachable-info predicate holding of the state. -/
lemma rd0_repoP (P : WorkflowInfo → Prop) (st : List (String × RepoData))
    (repo : String) (hst : ∀ q ∈ st, RepoP P q.2) :
    RepoP P ((lookupAssoc st repo).getD (initRepoData repo)) := by
  cases hl0 : lookupAssoc st repo with
  | none =>
    refine ⟨?_, ?_⟩ <;> simp [initRepoData]
  | some rd =>
    rcases lookupAssoc_mem st repo rd hl0 with ⟨q, hq, hq2⟩
    have h3 := hst q hq
    rw [hq2] at h3
    simpa using h3

/-- `statusStepCore` preserves any reachable-info predicate that holds of the
newly built `workflow_info`. -/
lemma statusStepCore_preserves (P : WorkflowInfo → Prop) (now : Int)
    (st : List (String × RepoData)) (repo : String) (run : WorkflowRun)
    (st' : List (String × RepoData))
    (hP : P (mkInfo now run)) (hst : ∀ q ∈ st, RepoP P q.2)
    (h : statusStepCore now st repo run = .ok st') : ∀ q ∈ st', RepoP P q.2 := by
  simp only [statusStepCore] at h
  have hrd0 : RepoP P ((lookupAssoc st repo).getD (initRepoData repo)) :=
    rd0_repoP P st repo hst
  set rd2 := bumpRepo run (mkInfo now run)
    ((lookupAssoc st repo).getD (initRepoData repo)) with hrd2
  have hw2 : ∀ w ∈ rd2.workflows, ∀ i ∈ w.2, P i := by
    intro w hw i hi
    rcases bumpRepo_infos _ _ _ w hw i hi with hi1 | ⟨w0, hw0, hi0⟩
    · rw [hi1]; exact hP
    · exact hrd0.2 w0 hw0 i hi0
  have hkeep : ∀ rdF, RepoP P rdF → ∀ q ∈ setAssoc st repo rdF, RepoP P q.2 := by
    intro rdF hF q hq
    rcases mem_setAssoc st repo rdF q hq with h5 | h5
    · rw [h5]; exact hF
    · exact hst q h5
  have hnewP : RepoP P { rd2 with latest_run := some (mkInfo now run) } := by
    refine ⟨?_, hw2⟩
    intro i hi
    have hi2 : some (mkInfo now run) = some i := hi
    injection hi2 with hi3
    rw [← hi3]
    exact hP
  have hold : RepoP P rd2 := by
    refine ⟨?_, hw2⟩
    intro i hi
    rw [hrd2, bumpRepo_latest] at hi
    exact hrd0.1 i hi
  cases hl2 : rd2.latest_run with
  | none =>
    rw [hl2] at h
    simp only [Except.ok.injEq] at h
    rw [← h]
    exact hkeep _ hnewP
  | some latest =>
    rw [hl2] at h
    dsimp only at h
    cases hg : pyStrGt run.updated_at latest.updated_at with
    | error m =>
      rw [hg] at h
      exact absurd h (by simp)
    | ok b =>
      rw [hg] at h
      simp only [Except.ok.injEq] at h
      rw [← h]
      by_cases hb : b
      · simp only [hb, if_true]
        exact hkeep _ hnewP
      · simp only [hb, if_false]
        exact hkeep _ hold

/-- When the run's `updated_at` is a string and every tracked `latest_run`
has a string `updated_at`, `statusStepCore` does not raise. -/
lemma statusStepCore_ok (now : Int) (st : List (String × RepoData))
    (repo : String) (run : WorkflowRun)
    (hsome : run.updated_at.isSome = true)
    (hst : ∀ q ∈ st, RepoP (fun i => i.updated_at.isSome = true) q.2) :
    ∃ st', statusStepCore now st repo run = .ok st' := by
  simp only [statusStepCore]
  cases hl2 : (bumpRepo run (mkInfo now run)
      ((lookupAssoc st repo).getD (initRepoData repo))).latest_run with
  | none => exact ⟨_, rfl⟩
  | some latest =>
    have hl0 : ((lookupAssoc st repo).getD (initRepoData repo)).latest_run =
        some latest := by
      rw [← bumpRepo_latest run (mkInfo now run)
        ((lookupAssoc st repo).getD (initRepoData repo))]
      exact hl2
    have hlsome : latest.updated_at.isSome = true :=
      (rd0_repoP _ st repo hst).1 latest hl0
    rcases Option.isSome_iff_exists.mp hsome with ⟨x, hx⟩
    rcases Option.isSome_iff_exists.mp hlsome with ⟨y, hy⟩
    exact ⟨_, by dsimp only; rw [hx, hy]; rfl⟩

/-- `statusFold` preserves any reachable-info predicate holding of every
built `workflow_info`. -/
lemma statusFold_preserves (P : WorkflowInfo → Prop) (now : Int) :
    ∀ (l : List (Event × WorkflowRun)) (st st' : List (String × RepoData)),
    statusFold now st l = .ok st' →
    (∀ p ∈ l, P (mkInfo now p.2)) →
    (∀ q ∈ st, RepoP P q.2) → ∀ q ∈ st', RepoP P q.2 := by
  intro l
  induction l with
  | nil =>
    intro st st' h _ hst
    simp only [statusFold, Except.ok.injEq] at h
    rw [← h]
    exact hst
  | cons p rest ih =>
    intro st st' h hl hst
    simp only [statusFold] at h
    cases hstep : statusStep now st p with
    | error m =>
      rw [hstep] at h
      exact absurd h (by simp)
    | ok mid =>
      rw [hstep] at h
      dsimp only at h
      have hmid : ∀ q ∈ mid, RepoP P q.2 :=
        statusStepCore_preserves P now st p.1.repository p.2 mid
          (hl p (List.mem_cons_self _ _)) hst hstep
      exact ih mid st' h (fun q hq => hl q (List.mem_cons_of_mem p hq)) hmid

/-- When every selected run's `updated_at` is a string, the event loop does
not raise. -/
lemma statusFold_ok (now : Int) :
    ∀ (l : List (Event × WorkflowRun)) (st : List (String × RepoData)),
    (∀ p ∈ l, p.2.updated_at.isSome = true) →
    (∀ q ∈ st, RepoP (fun i => i.updated_at.isSome = true) q.2) →
    ∃ st', statusFold now st l = .ok st' := by
  intro l
  induction l with
  | nil => intro st _ _; exact ⟨st, rfl⟩
  | cons p rest ih =>
    intro st hl hst
    obtain ⟨mid, hmid⟩ := statusStepCore_ok now st p.1.repository p.2
      (hl p (List.mem_cons_self _ _)) hst
    have hinv : ∀ q ∈ mid, RepoP (fun i => i.updated_at.isSome = true) q.2 :=
      statusStepCore_preserves _ now st p.1.repository p.2 mid
        (hl p (List.mem_cons_self _ _)) hst hmid
    obtain ⟨st', hst'⟩ := ih mid (fun q hq => hl q (List.mem_cons_of_mem p hq)) hinv
    refine ⟨st', ?_⟩
    simp only [statusFold]
    have hmid' : statusStep now st p = .ok mid := hmid
    rw [hmid']
    exact hst'

/-- A successful `sortRuns` only permutes the bucket. -/
lemma sortRuns_subset (l out : List WorkflowInfo) (h : sortRuns l = .ok out) :
    ∀ i ∈ out, i ∈ l := by
  simp only [sortRuns] at h
  by_cases hc : (decide (2 ≤ l.length) && l.any fun i => i.updated_at.isNone) = true
  · rw [if_pos hc] at h
    exact absurd h (by simp)
  · rw [if_neg hc] at h
    simp only [Except.ok.injEq] at h
    rw [← h]
    intro i hi
    exact List.mem_mergeSort.mp hi

/-- With no `None` keys, `sortRuns` succeeds (and returns the stable
descending sort). -/
lemma sortRuns_ok (l : List WorkflowInfo)
    (hall : ∀ i ∈ l, i.updated_at.isSome = true) :
    sortRuns l = .ok (l.mergeSort runsSortLe) := by
  simp only [sortRuns]
  have hany : (l.any fun i => i.updated_at.isNone) = false := by
    rw [List.any_eq_false]
    intro i hi
    rcases Option.isSome_iff_exists.mp (hall i hi) with ⟨v, hv⟩
    simp [hv]
  rw [if_neg]
  rw [hany]
  simp

/-- Infos of a successful `sortWorkflows` output come from input buckets. -/
lemma sortWorkflows_subset :
    ∀ (ws ws' : List (String × List WorkflowInfo)),
    sortWorkflows ws = .ok ws' →
    ∀ w ∈ ws', ∀ i ∈ w.2, ∃ w0 ∈ ws, i ∈ w0.2 := by
  intro ws
  induction ws with
  | nil =>
    intro ws' h
    simp only [sortWorkflows, Except.ok.injEq] at h
    rw [← h]
    intro w hw
    exact absurd hw (List.not_mem_nil w)
  | cons q rest ih =>
    intro ws' h w hw i hi
    simp only [sortWorkflows] at h
    cases h1 : sortRuns q.2 with
    | error m =>
      rw [h1] at h
      exact absurd h (by simp)
    | ok sorted =>
      rw [h1] at h
      dsimp only at h
      cases h2 : sortWorkflows rest with
      | error m =>
        rw [h2] at h
        exact absurd h (by simp)
      | ok ws2 =>
        rw [h2] at h
        dsimp only at h
        simp only [Except.ok.injEq] at h
        rw [← h] at hw
        rcases List.mem_cons.mp hw with hw1 | hw1
        · rw [hw1] at hi
          exact ⟨q, List.mem_cons_self _ _, sortRuns_subset q.2 sorted h1 i hi⟩
        · rcases ih ws2 h2 w hw1 i hi with ⟨w0, hw0, hi0⟩
          exact ⟨w0, List.mem_cons_of_mem q hw0, hi0⟩

/-- With no `None` keys anywhere, `sortWorkflows` succeeds. -/
lemma sortWorkflows_ok :
    ∀ ws : List (String × List WorkflowInfo),
    (∀ w ∈ ws, ∀ i ∈ w.2, i.updated_at.isSome = true) →
    ∃ ws', sortWorkflows ws = .ok ws' := by
  intro ws
  induction ws with
  | nil => intro _; exact ⟨[], rfl⟩
  | cons q rest ih =>
    intro hall
    obtain ⟨ws2, hws2⟩ := ih (fun w hw => hall w (List.mem_cons_of_mem q hw))
    refine ⟨(q.1, q.2.mergeSort runsSortLe) :: ws2, ?_⟩
    simp only [sortWorkflows]
    rw [sortRuns_ok q.2 (hall q (List.mem_cons_self _ _)), hws2]

/-- Infos of a successful `sortRepos` output come from input aggregates. -/
lemma sortRepos_subset :
    ∀ (rs rs' : List (String × RepoData)),
    sortRepos rs = .ok rs' →
    ∀ q ∈ rs', ∀ w ∈ q.2.workflows, ∀ i ∈ w.2,
      ∃ q0 ∈ rs, ∃ w0 ∈ q0.2.workflows, i ∈ w0.2 := by
  intro rs
  induction rs with
  | nil =>
    intro rs' h
    simp only [sortRepos, Except.ok.injEq] at h
    rw [← h]
    intro q hq
    exact absurd hq (List.not_mem_nil q)
  | cons p rest ih =>
    intro rs' h q hq w hw i hi
    simp only [sortRepos] at h
    cases h1 : sortWorkflows p.2.workflows with
    | error m =>
      rw [h1] at h
      exact absurd h (by simp)
    | ok ws =>
      rw [h1] at h
      dsimp only at h
      cases h2 : sortRepos rest with
      | error m =>
        rw [h2] at h
        exact absurd h (by simp)
      | ok res =>
        rw [h2] at h
        dsimp only at h
        simp only [Except.ok.injEq] at h
        rw [← h] at hq
        rcases List.mem_cons.mp hq with hq1 | hq1
        · rw [hq1] at hw
          rcases sortWorkflows_subset p.2.workflows ws h1 w hw i hi with ⟨w0, hw0, hi0⟩
          exact ⟨p, List.mem_cons_self _ _, w0, hw0, hi0⟩
        · rcases ih res h2 q hq1 w hw i hi with ⟨q0, hq0, w0, hw0, hi0⟩
          exact ⟨q0, List.mem_cons_of_mem p hq0, w0, hw0, hi0⟩

/-- With no `None` keys anywhere, `sortRepos` succeeds. -/
lemma sortRepos_ok :
    ∀ rs : List (String × RepoData),
    (∀ q ∈ rs, ∀ w ∈ q.2.workflows, ∀ i ∈ w.2, i.updated_at.isSome = true) →
    ∃ rs', sortRepos rs = .ok rs' := by
  intro rs
  induction rs with
  | nil => intro _; exact ⟨[], rfl⟩
  | cons p rest ih =>
    intro hall
    obtain ⟨ws, hws⟩ := sortWorkflows_ok p.2.workflows
      (hall p (List.mem_cons_self _ _))
    obtain ⟨res, hres⟩ := ih (fun q hq => hall q (List.mem_cons_of_mem p hq))
    refine ⟨(p.1, { p.2 with workflows := ws }) :: res, ?_⟩
    simp only [sortRepos]
    rw [hws, hres]

/-- Every selected pair's run inherits the all-string hypothesis on the
store. -/
lemma selectWorkflowEvents_some (conclusion : Option String) (events : List Event)
    (hs : ∀ e ∈ events, ∀ run, e.workflow_run = some run →
      run.updated_at.isSome = true) :
    ∀ p ∈ selectWorkflowEvents conclusion events, p.2.updated_at.isSome = true := by
  intro p hp
  have hp0 : p ∈ events.filterMap (fun e => e.workflow_run.map (fun r => (e, r))) := by
    simp only [selectWorkflowEvents] at hp
    by_cases ht : pyTruthy conclusion = true
    · rw [if_pos ht] at hp
      exact (List.mem_filter.mp hp).1
    · rw [if_neg ht] at hp
      exact hp
  rcases List.mem_filterMap.mp hp0 with ⟨e, he, hmap⟩
  rcases Option.map_eq_some'.mp hmap with ⟨r, hr, hpr⟩
  have h2 := hs e he r hr
  rw [← hpr]
  exact h2

/-- When every workflow run's `updated_at` is a string, `get_workflow_status`
returns a value — it never raises. -/
lemma get_workflow_status_ok (conclusion : Option String) (now : Int)
    (events : List Event)
    (hs : ∀ e ∈ events, ∀ run, e.workflow_run = some run →
      run.updated_at.isSome = true) :
    ∃ out, get_workflow_status conclusion now (some events) = .ok out := by
  by_cases he : events.isEmpty = true
  · exact ⟨.message "No GitHub Actions events received yet",
      by simp only [get_workflow_status]; rw [if_pos he]⟩
  · have hsel := selectWorkflowEvents_some conclusion events hs
    obtain ⟨repos, hrepos⟩ := statusFold_ok now
      (selectWorkflowEvents conclusion events) [] hsel
      (fun q hq => absurd hq (List.not_mem_nil q))
    have hinv : ∀ q ∈ repos, RepoP (fun i => i.updated_at.isSome = true) q.2 :=
      statusFold_preserves _ now _ [] repos hrepos (fun p hp => hsel p hp)
        (fun q hq => absurd hq (List.not_mem_nil q))
    obtain ⟨res, hres⟩ := sortRepos_ok repos (fun q hq => (hinv q hq).2)
    exact ⟨_, by
      simp only [get_workflow_status]
      rw [if_neg he, hrepos]
      dsimp only
      rw [hres]⟩

/-- Whenever `get_workflow_status` returns a summary, every reported run's
`time_since_run` is exactly the elapsed-time computation (hence the
documented error markers for falsy or unusable `updated_at` strings). -/
lemma get_workflow_status_infos (conclusion : Option String) (now : Int)
    (events : List Event) (sm : StatusSummary)
    (h : get_workflow_status conclusion now (some events) = .ok (.summary sm)) :
    ∀ rd ∈ sm.repositories, ∀ w ∈ rd.workflows, ∀ i ∈ w.2,
      i.time_since_run = computeTimeSince now i.updated_at := by
  simp only [get_workflow_status] at h
  by_cases he : events.isEmpty = true
  · rw [if_pos he] at h
    exact absurd h (by simp)
  · rw [if_neg he] at h
    cases hf : statusFold now [] (selectWorkflowEvents conclusion events) with
    | error m =>
      rw [hf] at h
      exact absurd h (by simp)
    | ok repos =>
      rw [hf] at h
      dsimp only at h
      cases hs2 : sortRepos repos with
      | error m =>
        rw [hs2] at h
        exact absurd h (by simp)
      | ok res =>
        rw [hs2] at h
        dsimp only at h
        simp only [Except.ok.injEq, StatusOut.summary.injEq] at h
        intro rd hrd w hw i hi
        have hrepos : sm.repositories = res.map (·.2) := by rw [← h]
        rw [hrepos] at hrd
        rcases List.mem_map.mp hrd with ⟨q, hq, hq2⟩
        rw [← hq2] at hw
        rcases sortRepos_subset repos res hs2 q hq w hw i hi with
          ⟨q0, hq0, w0, hw0, hi0⟩
        have hinv : ∀ q' ∈ repos, RepoP
            (fun i' => i'.time_since_run = computeTimeSince now i'.updated_at)
            q'.2 :=
          statusFold_preserves _ now _ [] repos hf (fun p _ => rfl)
            (fun q' hq' => absurd hq' (List.not_mem_nil q'))
        exact (hinv q0 hq0).2 w0 hw0 i hi0

/-- `collectFailures` raises exactly when some failure-conclusion event has
an unusable timestamp. -/
lemma collectFailures_error_iff (cutoff : Int) :
    ∀ events : List Event,
    (∃ m, collectFailures cutoff events = .error m) ↔
    (∃ e ∈ events, (∃ run, e.workflow_run = some run ∧
      run.conclusion = some "failure") ∧ pyParseEventTime e.timestamp = none) := by
  intro events
  induction events with
  | nil => simp [collectFailures]
  | cons e rest ih =>
    simp only [collectFailures]
    cases hw : e.workflow_run with
    | none =>
      constructor
      · rintro ⟨m, hm⟩
        rcases ih.mp ⟨m, hm⟩ with ⟨e', he', hrest⟩
        exact ⟨e', List.mem_cons_of_mem e he', hrest⟩
      · rintro ⟨e', he', ⟨run, hrun, hconc⟩, hp⟩
        rcases List.mem_cons.mp he' with rfl | he'
        · rw [hw] at hrun
          exact absurd hrun (by simp)
        · exact ih.mpr ⟨e', he', ⟨run, hrun, hconc⟩, hp⟩
    | some run =>
      dsimp only
      by_cases hc : (run.conclusion == some "failure") = true
      · rw [if_pos hc]
        cases hp : pyParseEventTime e.timestamp with
        | none =>
          constructor
          · intro _
            exact ⟨e, List.mem_cons_self _ _, ⟨run, hw, beq_iff_eq.mp hc⟩, hp⟩
          · intro _
            exact ⟨_, rfl⟩
        | some t =>
          constructor
          · rintro ⟨m, hm⟩
            cases hcf : collectFailures cutoff rest with
            | error m2 =>
              rcases ih.mp ⟨m2, hcf⟩ with ⟨e', he', hrest⟩
              exact ⟨e', List.mem_cons_of_mem e he', hrest⟩
            | ok tail =>
              rw [hcf] at hm
              exact absurd hm (by simp)
          · rintro ⟨e', he', hfail, hp'⟩
            rcases List.mem_cons.mp he' with rfl | he'
            · rw [hp] at hp'
              exact absurd hp' (by simp)
            · rcases ih.mpr ⟨e', he', hfail, hp'⟩ with ⟨m, hm⟩
              rw [hm]
              exact ⟨m, rfl⟩
      · rw [if_neg hc]
        constructor
        · rintro ⟨m, hm⟩
          rcases ih.mp ⟨m, hm⟩ with ⟨e', he', hrest⟩
          exact ⟨e', List.mem_cons_of_mem e he', hrest⟩
        · rintro ⟨e', he', ⟨run', hrun', hconc'⟩, hp'⟩
          rcases List.mem_cons.mp he' with rfl | he'
          · rw [hw] at hrun'
            injection hrun' with hr
            rw [← hr] at hconc'
            exact absurd (beq_iff_eq.mpr hconc') hc
          · exact ih.mpr ⟨e', he', ⟨run', hrun', hconc'⟩, hp'⟩

/-- `get_new_failures` on a present store raises exactly when some
failure-conclusion event has an unusable timestamp. -/
lemma get_new_failures_error_iff (since_hours now : Int) (events : List Event) :
    (∃ m, get_new_failures since_hours now (some events) = .error m) ↔
    (∃ e ∈ events, (∃ run, e.workflow_run = some run ∧
      run.conclusion = some "failure") ∧ pyParseEventTime e.timestamp = none) := by
  rw [← collectFailures_error_iff (now - since_hours * 3600000000) events]
  constructor
  · rintro ⟨m, hm⟩
    simp only [get_new_failures] at hm
    cases hcf : collectFailures (now - since_hours * 3600000000) events with
    | error m2 => exact ⟨m2, rfl⟩
    | ok fs =>
      rw [hcf] at hm
      exact absurd hm (by simp)
  · rintro ⟨m, hm⟩
    refine ⟨m, ?_⟩
    simp only [get_new_failures]
    rw [hm]

/-- **C1, counterexample.**  The claim fails on the code in both halves.
In `get_workflow_status`, a run whose `updated_at` is JSON null gets its
error marker but the subsequent `None > str` comparison against the tracked
latest run raises, aborting the whole call (store: one run with a string
`updated_at`, then one with null).  In `get_new_failures`, a
failure-conclusion event whose timestamp does not parse makes the whole call
raise instead of being excluded (store: one failure event with timestamp
`"boom"`). -/
theorem timestamp_handling_counterexample :
    get_workflow_status none 0 (some cexStatusEvents) =
      .error "TypeError: not supported between instances of NoneType and str" ∧
    get_new_failures 24 0 (some cexFailEvents) =
      .error ("unhandled exception parsing or comparing timestamp: boom") :=
  ⟨rfl, rfl⟩

/-- **C1, amended.**  (i) When every workflow run's `updated_at` is a string,
`get_workflow_status` returns a value — and (ii) in any returned summary each
reported run's `time_since_run` is the elapsed-time computation of its own
`updated_at`, which (iii) is the `"Could not parse timestamp"` marker for an
unparsable non-empty string and (iv) the `"No timestamp available"` marker
for a null or empty one, the call still succeeding.  (v) In
`get_new_failures` an unparsable timestamp is *not* handled locally: the call
raises exactly when some failure-conclusion event's timestamp is unusable, so
it succeeds (returning a result for the remaining events) only in the
absence of such an event. -/
theorem timestamp_handling_amended :
    (∀ (conclusion : Option String) (now : Int) (events : List Event),
      (∀ e ∈ events, ∀ run, e.workflow_run = some run →
        run.updated_at.isSome = true) →
      ∃ out, get_workflow_status conclusion now (some events) = .ok out) ∧
    (∀ (conclusion : Option String) (now : Int) (events : List Event)
      (sm : StatusSummary),
      get_workflow_status conclusion now (some events) = .ok (.summary sm) →
      ∀ rd ∈ sm.repositories, ∀ w ∈ rd.workflows, ∀ i ∈ w.2,
        i.time_since_run = computeTimeSince now i.updated_at) ∧
    (∀ (now : Int) (ts : String), ts ≠ "" → pyParseEventTime ts = none →
      computeTimeSince now (some ts) = .err "Could not parse timestamp") ∧
    (∀ now : Int, computeTimeSince now none = .err "No timestamp available" ∧
      computeTimeSince now (some "") = .err "No timestamp available") ∧
    (∀ (since_hours now : Int) (events : List Event),
      (∃ m, get_new_failures since_hours now (some events) = .error m) ↔
      ∃ e ∈ events, (∃ run, e.workflow_run = some run ∧
        run.conclusion = some "failure") ∧ pyParseEventTime e.timestamp = none) := by
  refine ⟨get_workflow_status_ok, get_workflow_status_infos, ?_, ?_,
    get_new_failures_error_iff⟩
  · intro now ts hne hp
    simp [computeTimeSince, pyTruthy, hne, hp]
  · intro now
    exact ⟨rfl, rfl⟩

/-- Witness for amended C1: a store whose single failure run carries the
unparsable string `"not-a-ts"` — status succeeds; the elapsed-time
computation on that string is the parse-error marker; and a store with an
unparsable failure timestamp makes `get_new_failures` raise. -/
theorem timestamp_handling_amended_witness :
    (∃ out, get_workflow_status none 0
      (some [sWfEvent "t" "a/b" "CI" (some "not-a-ts")]) = .ok out) ∧
    computeTimeSince 0 (some "not-a-ts") = .err "Could not parse timestamp" ∧
    (∃ m, get_new_failures 24 0 (some cexFailEvents) = .error m) :=
  ⟨timestamp_handling_amended.1 none 0 _ (by
      intro e he run hr
      rw [List.mem_singleton] at he
      subst he
      simp only [sWfEvent, sRun] at hr
      injection hr with hr2
      rw [← hr2]
      rfl),
   timestamp_handling_amended.2.2.1 0 "not-a-ts" (by decide) (by rfl),
   (timestamp_handling_amended.2.2.2.2 24 0 cexFailEvents).mpr
     ⟨sWfEvent "boom" "a/b" "CI" (some "2024-01-01T00:00:00Z"),
      List.mem_cons_self _ _,
      ⟨sRun "CI" (some "2024-01-01T00:00:00Z"), rfl, rfl⟩, rfl⟩⟩

/-! ## Claim C3: `unseen(false)` writes nothing and is idempotent -/

/-- **C3.** For every event store and seen-state store, `unseen(false)`
performs no write — both persisted documents come back unchanged — and two
consecutive such calls (at arbitrary clock readings) return identical
results. -/
theorem unseen_false_no_write_idempotent (now now2 : Int) (s : Stores) :
    (get_unseen_events false now s).2 = s ∧
    (get_unseen_events false now2 ((get_unseen_events false now s).2)).1 =
      (get_unseen_events false now s).1 := by
  cases s with
  | mk ef st =>
    cases ef with
    | none => simp [get_unseen_events]
    | some evs => simp [get_unseen_events]

/-! ## Claim C5: `mark_seen` with empty/absent input errors and writes nothing -/

/-- **C5.** `mark_events_as_seen` called with `None` or with an empty identity
list returns the structured error record and leaves both persisted documents
unchanged. -/
theorem mark_seen_falsy_error_no_write (now : Int) (s : Stores) :
    mark_events_as_seen none now s = (.error "No event IDs provided", s) ∧
    mark_events_as_seen (some []) now s = (.error "No event IDs provided", s) := by
  constructor <;> simp [mark_events_as_seen]

/-! ## Claim C4: `recent(limit)` returns the tail of the store -/

/-- **C4.** For every positive `limit` and non-empty event list, `recent`
returns exactly `min limit (length events)` records forming a suffix of the
stored list (the tail, in original arrival order); an absent or empty store
yields `[]`, never an error. -/
theorem recent_returns_tail :
    (∀ (limit : Nat) (evs : List Event), 0 < limit → evs ≠ [] →
      (get_recent_actions_events limit (some evs)).length = min limit evs.length ∧
      (get_recent_actions_events limit (some evs)) <:+ evs) ∧
    (∀ limit : Nat, get_recent_actions_events limit none = []) ∧
    (∀ limit : Nat, get_recent_actions_events limit (some []) = []) := by
  refine ⟨fun limit evs hpos _ => ?_, fun limit => rfl, fun limit => ?_⟩
  · have hlim : limit ≠ 0 := Nat.pos_iff_ne_zero.mp hpos
    constructor
    · simp [get_recent_actions_events, pyTailSlice, hlim]
      omega
    · simp only [get_recent_actions_events, pyTailSlice, hlim, if_false]
      exact List.drop_suffix _ _
  · simp [get_recent_actions_events, pyTailSlice]

/-- Witness for C4 at a concrete input: three stored events, `limit = 2`. -/
theorem recent_returns_tail_witness :
    (get_recent_actions_events 2 (some [sEvent "t1" "push" "r",
        sEvent "t2" "push" "r", sEvent "t3" "push" "r"])).length =
      min 2 ([sEvent "t1" "push" "r", sEvent "t2" "push" "r",
        sEvent "t3" "push" "r"] : List Event).length ∧
    (get_recent_actions_events 2 (some [sEvent "t1" "push" "r",
        sEvent "t2" "push" "r", sEvent "t3" "push" "r"])) <:+
      [sEvent "t1" "push" "r", sEvent "t2" "push" "r", sEvent "t3" "push" "r"] :=
  recent_returns_tail.1 2 _ (by decide) (by simp [sEvent])

/-! ## Claim C9: `recent(0)` returns the whole store -/

/-- **C9.** With `limit = 0` on an existing non-empty store, `recent` returns
the entire event list (Python's `events[-0:]` is `events[0:]`), not zero
records. -/
theorem recent_zero_returns_all (evs : List Event) (h : evs ≠ []) :
    get_recent_actions_events 0 (some evs) = evs := by
  simp [get_recent_actions_events, pyTailSlice]

/-- Witness for C9 at a concrete two-event store. -/
theorem recent_zero_returns_all_witness :
    get_recent_actions_events 0 (some [sEvent "t1" "push" "r",
        sEvent "t2" "push" "r"]) =
      [sEvent "t1" "push" "r", sEvent "t2" "push" "r"] :=
  recent_zero_returns_all _ (by simp [sEvent])

end PrAgent
